import Mathlib

/-!
Shallow embedding of the polyomino-calendar puzzle engine.

The definitions below translate the JavaScript sources of the repository:
  * `src/pieces.js`  — piece catalog, orientation generation (rotations and
    horizontal flips with canonical-key deduplication);
  * `src/grid.js`    — the fixed 6×8 calendar board, containment queries,
    piece-to-board coordinate transform, placement validation;
  * `src/gameLogic.js` — the game model (placements map + occupancy set),
    placePiece / removePiece / reset, win-condition check.

Conventions used throughout:
  * JavaScript numbers that hold board or piece coordinates are modelled as
    `Int` (they can go negative mid-computation, e.g. in `rotateCoords`).
  * A JS `Set` of "row,col" strings is modelled as a `Finset (Int × Int)`;
    the string encoding of an integer pair is injective, so the JS set of
    strings and the finset of pairs are in bijection.
  * A JS `Map` keyed by piece name is modelled as an association list with
    JS `Map` update semantics (`mapSet`, `mapDelete`, `mapHas` below).
  * `Array.prototype.sort` with comparator `(a,b) => a[0]-b[0] || a[1]-b[1]`
    is modelled by the stable insertion sort `sortCoords` (the coordinate
    pairs inside one shape are pairwise distinct, so any sort implementing
    the same lexicographic order produces the same list).
-/

/-! Part 1: coordinate lists and sorting (pieces.js helpers). -/

/-- Minimum of a list of integers (`Math.min(...)`); the sources only apply
it to non-empty lists, the default for `[]` is arbitrary. -/
def listMin : List Int → Int
  | [] => 0
  | a :: rest => rest.foldl min a

/-- Maximum of a list of integers (`Math.max(...)`). -/
def listMax : List Int → Int
  | [] => 0
  | a :: rest => rest.foldl max a

/-- The JS comparator `(a, b) => a[0] - b[0] || a[1] - b[1]` as a boolean
"less or equal" test: lexicographic by x, then y. -/
def coordLe (p q : Int × Int) : Bool :=
  decide (p.1 < q.1) || (p.1 == q.1 && decide (p.2 ≤ q.2))

/-- Insert into a list sorted by `coordLe`. -/
def insertCoord (p : Int × Int) : List (Int × Int) → List (Int × Int)
  | [] => [p]
  | q :: rest => if coordLe p q then p :: q :: rest else q :: insertCoord p rest

/-- Source `coords.sort((a, b) => a[0] - b[0] || a[1] - b[1])`. -/
def sortCoords (l : List (Int × Int)) : List (Int × Int) :=
  l.foldr insertCoord []

/-! Part 2: pieces.js. -/

/-- Source `rotateCoords`: rotate 90° clockwise, `(x,y) -> (y,-x)`, then translate
so that the minimum x and minimum y are 0. -/
def rotateCoords (coords : List (Int × Int)) : List (Int × Int) :=
  let rotated := coords.map (fun c => (c.2, -c.1))
  let minX := listMin (rotated.map Prod.fst)
  let minY := listMin (rotated.map Prod.snd)
  rotated.map (fun c => (c.1 - minX, c.2 - minY))

/-- Source `flipCoords`: reflect around the piece's vertical centre line and
re-normalize x.  The JS computes `center = (minX + maxX) / 2` (possibly a
half-integer) and maps `x` to `2 * center - x`; on integer inputs this is
exactly `minX + maxX - x`, which is the form used here. -/
def flipCoords (coords : List (Int × Int)) : List (Int × Int) :=
  let minX := listMin (coords.map Prod.fst)
  let maxX := listMax (coords.map Prod.fst)
  let flipped := coords.map (fun c => (minX + maxX - c.1, c.2))
  let minFlippedX := listMin (flipped.map Prod.fst)
  flipped.map (fun c => (c.1 - minFlippedX, c.2))

/-- One iteration of the loops in `generateOrientations`.  The JS sorts
`current` in place when computing the canonical key (the key is the JSON
serialization of the sorted list, so the sorted list itself serves as the
key here), pushes a copy of the sorted list when the key is new, and then
rotates; because the in-place sort happens before the rotation, the
rotation is applied to the sorted list. -/
def orientationStep (st : List (List (Int × Int)) × List (List (Int × Int)) × List (Int × Int)) :
    List (List (Int × Int)) × List (List (Int × Int)) × List (Int × Int) :=
  let orients := st.1
  let seen := st.2.1
  let current := st.2.2
  let key := sortCoords current
  if seen.contains key then (orients, seen, rotateCoords key)
  else (orients ++ [key], seen ++ [key], rotateCoords key)

/-- Source `generateOrientations(baseCoords)`: four rotations of the base shape,
then four rotations of the flipped base shape, deduplicated by canonical
key, in discovery order.  (After the first loop the JS has sorted
`baseCoords` in place, so the flip is applied to the sorted base.) -/
def generateOrientations (baseCoords : List (Int × Int)) : List (List (Int × Int)) :=
  let st1 := (List.range 4).foldl (fun st _ => orientationStep st) ([], [], baseCoords)
  let st2 := (List.range 4).foldl (fun st _ => orientationStep st)
    (st1.1, st1.2.1, flipCoords (sortCoords baseCoords))
  st2.1

/-- A catalog piece: display name, CSS color, and the orientation list. -/
structure Piece where
  name : String
  color : String
  orientations : List (List (Int × Int))
deriving DecidableEq

/-- The piece catalog (`export const pieces = {...}`), in declaration order. -/
def pieces : List (String × Piece) :=
  [ ("L", ⟨"L", "#E74C3C", generateOrientations [(0,0), (1,0), (2,0), (3,0), (0,1)]⟩),
    ("N", ⟨"N", "#3498DB", generateOrientations [(0,0), (1,0), (1,1), (2,1), (3,1)]⟩),
    ("P", ⟨"P", "#27AE60", generateOrientations [(0,0), (1,0), (0,1), (1,1), (0,2)]⟩),
    ("U", ⟨"U", "#F39C12", generateOrientations [(0,0), (2,0), (0,1), (1,1), (2,1)]⟩),
    ("V", ⟨"V", "#8E44AD", generateOrientations [(0,0), (1,0), (2,0), (0,1), (0,2)]⟩),
    ("Y", ⟨"Y", "#E91E63", generateOrientations [(0,0), (1,0), (2,0), (3,0), (1,1)]⟩),
    ("Z", ⟨"Z", "#16A085", generateOrientations [(0,0), (0,1), (1,1), (2,1), (2,2)]⟩),
    ("RECTANGLE", ⟨"Rectangle", "#E67E22",
      generateOrientations [(0,0), (1,0), (2,0), (0,1), (1,1), (2,1)]⟩) ]

/-- Source `getPiece(name)`: look the piece up in the catalog (`undefined` → `none`). -/
def getPiece (name : String) : Option Piece :=
  (pieces.find? (fun e => e.1 == name)).map (fun e => e.2)

/-- Source `findFlippedOrientation(name, currentIndex)`: flip the current
orientation, canonicalize, and linearly search the orientation list for a
matching key; fall back to the unchanged index when there is no match (or
when the piece name is unknown). -/
def findFlippedOrientation (name : String) (currentIndex : Nat) : Nat :=
  match getPiece name with
  | none => currentIndex
  | some piece =>
    let currentCoords := piece.orientations.getD currentIndex []
    let normalizedFlipped := sortCoords (flipCoords currentCoords)
    match piece.orientations.findIdx? (fun o => sortCoords o == normalizedFlipped) with
    | some i => i
    | none => currentIndex

/-! Part 3: grid.js. -/

def GRID_ROWS : Nat := 6
def GRID_COLS : Nat := 8

/-- A grid cell descriptor: `{ type: 'empty' }`, `{ type: 'month', label,
monthIndex }`, or `{ type: 'day', label, dayNumber }`. -/
inductive Square where
  | empty : Square
  | month (label : String) (monthIndex : Nat) : Square
  | day (label : String) (dayNumber : Nat) : Square
deriving DecidableEq

def MONTH_NAMES : List String :=
  ["January", "February", "March", "April", "May", "June",
   "July", "August", "September", "October", "November", "December"]

/-- Assignment `grid[row][col] = s` on a list-of-lists grid. -/
def setCell (grid : List (List Square)) (row col : Nat) (s : Square) :
    List (List Square) :=
  grid.set row ((grid.getD row []).set col s)

/-- The twelve month positions placed by `initializeGrid` (2 rows of 6,
centred in columns 1–6), indexed in order by month 0–11. -/
def monthCellPositions : List (Nat × Nat) :=
  [(0,1), (0,2), (0,3), (0,4), (0,5), (0,6),
   (1,1), (1,2), (1,3), (1,4), (1,5), (1,6)]

/-- One of the day-filling loops of `initializeGrid`: fill `cols` cells of
`row` starting from column 0, threading the running day counter. -/
def fillDayRow (st : List (List Square) × Nat) (row cols : Nat) :
    List (List Square) × Nat :=
  (List.range cols).foldl
    (fun st col => (setCell st.1 row col (Square.day (toString st.2) st.2), st.2 + 1))
    st

/-- Source `initializeGrid()`: the fixed 6×8 calendar layout — months in rows 0–1
columns 1–6, days 1–24 filling rows 2–4, days 25–31 in row 5 columns 0–6,
every other position `empty`. -/
def initializeGrid : List (List Square) :=
  let grid := List.replicate GRID_ROWS (List.replicate GRID_COLS Square.empty)
  let grid := monthCellPositions.enum.foldl
    (fun g e => setCell g e.2.1 e.2.2 (Square.month (MONTH_NAMES.getD e.1 "") e.1)) grid
  let st := fillDayRow (grid, 1) 2 8
  let st := fillDayRow st 3 8
  let st := fillDayRow st 4 8
  let st := fillDayRow st 5 7
  st.1

/-- Cell `grid[row][col]` of the initialized grid (in-bounds access only in the
sources). -/
def gridCell (row col : Nat) : Square :=
  (initializeGrid.getD row []).getD col Square.empty

/-- Source `getAllSquares()`: all non-empty cells as `(row, col, square)` triples,
row-major. -/
def getAllSquares : List (Int × Int × Square) :=
  (List.range GRID_ROWS).flatMap (fun row =>
    (List.range GRID_COLS).filterMap (fun col =>
      match gridCell row col with
      | Square.empty => none
      | s => some ((row : Int), (col : Int), s)))

/-- Source `getSquare(row, col)`: `null` out of bounds or on an empty cell,
otherwise the cell descriptor. -/
def getSquare (row col : Int) : Option Square :=
  if row < 0 ∨ (GRID_ROWS : Int) ≤ row ∨ col < 0 ∨ (GRID_COLS : Int) ≤ col then none
  else
    match gridCell row.toNat col.toNat with
    | Square.empty => none
    | s => some s

/-- Source `isValidGridPosition(row, col)`: in bounds and on a calendar square. -/
def isValidGridPosition (row col : Int) : Bool :=
  decide (0 ≤ row) && decide (row < (GRID_ROWS : Int)) &&
  decide (0 ≤ col) && decide (col < (GRID_COLS : Int)) &&
  (getSquare row col).isSome

/-- Source `pieceToGridCoords(pieceCoords, gridRow, gridCol)`: each relative
`(x, y)` maps to absolute `(gridRow + y, gridCol + x)`. -/
def pieceToGridCoords (pieceCoords : List (Int × Int)) (gridRow gridCol : Int) :
    List (Int × Int) :=
  pieceCoords.map (fun c => (gridRow + c.2, gridCol + c.1))

/-- Source `isValidPlacement(pieceCoords, occupiedSquares)`: every cell must be a
valid calendar square and must not be occupied.  NOTE: the source function
takes exactly these two parameters; the `currentDate` argument passed by
its callers (renderer.js, the input handlers) does not correspond to any
parameter and is dropped, so no excluded-cell check happens here. -/
def isValidPlacement (pieceCoords : List (Int × Int))
    (occupiedSquares : Finset (Int × Int)) : Bool :=
  pieceCoords.all (fun rc =>
    isValidGridPosition rc.1 rc.2 && !(decide (rc ∈ occupiedSquares)))

/-- Source `findMonthPosition(monthIndex)`: grid position of the month cell. -/
def findMonthPosition (monthIndex : Nat) : Option (Int × Int) :=
  (getAllSquares.find? (fun e =>
    match e.2.2 with
    | Square.month _ mi => mi == monthIndex
    | _ => false)).map (fun e => (e.1, e.2.1))

/-- Source `findDayPosition(dayNumber)`: grid position of the day cell. -/
def findDayPosition (dayNumber : Nat) : Option (Int × Int) :=
  (getAllSquares.find? (fun e =>
    match e.2.2 with
    | Square.day _ dn => dn == dayNumber
    | _ => false)).map (fun e => (e.1, e.2.1))

/-! Part 4: gameLogic.js. -/

/-- A recorded placement `{ row, col, orientationIndex }`. -/
structure Placement where
  row : Int
  col : Int
  orientationIndex : Nat
deriving DecidableEq

/-- The game model: the grid, the `Map<pieceName, Placement>` of placed
pieces (association list in insertion order), and the occupancy set. -/
structure GameModel where
  grid : List (List Square)
  placedPieces : List (String × Placement)
  occupiedSquares : Finset (Int × Int)
deriving DecidableEq

/-- Operation `Map.has(k)`. -/
def mapHas (m : List (String × Placement)) (k : String) : Bool :=
  m.any (fun e => e.1 == k)

/-- Operation `Map.set(k, v)`: overwrite in place when the key exists (keeping its
position), otherwise append. -/
def mapSet (m : List (String × Placement)) (k : String) (v : Placement) :
    List (String × Placement) :=
  if mapHas m k then m.map (fun e => if e.1 == k then (k, v) else e)
  else m ++ [(k, v)]

/-- Operation `Map.delete(k)`. -/
def mapDelete (m : List (String × Placement)) (k : String) :
    List (String × Placement) :=
  m.filter (fun e => !(e.1 == k))

/-- Source `createGameModel(grid)`: empty placements, empty occupancy. -/
def createGameModel (grid : List (List Square)) : GameModel :=
  ⟨grid, [], ∅⟩

/-- Loop `coords.forEach(([r, c]) => set.add(...))` adding cells to a set. -/
def addCells (s : Finset (Int × Int)) (coords : List (Int × Int)) :
    Finset (Int × Int) :=
  coords.foldl (fun s rc => insert rc s) s

/-- The absolute cells covered by one recorded placement:
`pieceToGridCoords(getPiece(name).orientations[placement.orientationIndex],
placement.row, placement.col)`.  The sources throw on an unknown piece name
or out-of-range orientation index; the `getD` defaults here are only
reached on those crash paths, which no well-formed state exercises. -/
def placementCells (pieceName : String) (pl : Placement) : List (Int × Int) :=
  match getPiece pieceName with
  | none => []
  | some piece =>
    pieceToGridCoords (piece.orientations.getD pl.orientationIndex []) pl.row pl.col

/-- The body of `rebuildOccupiedSquares`: clear the set, then add every
current placement's cells in map order. -/
def unionPlacements (placed : List (String × Placement)) : Finset (Int × Int) :=
  placed.foldl (fun s e => addCells s (placementCells e.1 e.2)) ∅

/-- Source `rebuildOccupiedSquares(gameModel)`. -/
def rebuildOccupiedSquares (m : GameModel) : GameModel :=
  { m with occupiedSquares := unionPlacements m.placedPieces }

/-- Source `placePiece(gameModel, pieceName, row, col, orientationIndex)`: record
the placement (overwriting any existing one for that name), add its
absolute cells to the occupancy set, and return `true`.  No validity check
of any kind is performed.  `none` models the JS exception thrown when the
piece name is not in the catalog or the orientation index is out of range
(`getPiece(...)` is `undefined`, or `orientations[...]` is `undefined`). -/
def placePiece (m : GameModel) (pieceName : String) (row col : Int)
    (orientationIndex : Nat) : Option (GameModel × Bool) :=
  match getPiece pieceName with
  | none => none
  | some piece =>
    match piece.orientations.get? orientationIndex with
    | none => none
    | some coords =>
      some ({ m with
                placedPieces := mapSet m.placedPieces pieceName ⟨row, col, orientationIndex⟩,
                occupiedSquares := addCells m.occupiedSquares (pieceToGridCoords coords row col) },
            true)

/-- Source `removePiece(gameModel, pieceName)`: `false` and no change when the
piece is not placed; otherwise delete the placement, rebuild the occupancy
set from the remaining placements, and return `true`. -/
def removePiece (m : GameModel) (pieceName : String) : GameModel × Bool :=
  if mapHas m.placedPieces pieceName then
    (rebuildOccupiedSquares { m with placedPieces := mapDelete m.placedPieces pieceName }, true)
  else (m, false)

/-- The current date `{ monthIndex, dayNumber }`. -/
structure CurrentDate where
  monthIndex : Nat
  dayNumber : Nat

/-- The `isCurrent` test inside `checkWinCondition`: the square is the
current-date month cell or the current-date day cell. -/
def squareIsCurrent (d : CurrentDate) (s : Square) : Bool :=
  match s with
  | Square.month _ mi => mi == d.monthIndex
  | Square.day _ dn => dn == d.dayNumber
  | Square.empty => false

/-- The `squaresToCover` list computed by `checkWinCondition`: all calendar
cells whose square is not the current month or current day cell. -/
def squaresToCover (d : CurrentDate) : List (Int × Int) :=
  (getAllSquares.filter (fun e => !(squareIsCurrent d e.2.2))).map
    (fun e => (e.1, e.2.1))

/-- Source `checkWinCondition(gameModel, currentDate)`: every square to cover is
in the occupancy set.  Reads nothing of the model except `occupiedSquares`. -/
def checkWinCondition (m : GameModel) (d : CurrentDate) : Bool :=
  (squaresToCover d).all (fun rc => decide (rc ∈ m.occupiedSquares))

/-- Source `resetGameModel(gameModel)`: clear placements and occupancy. -/
def resetGameModel (m : GameModel) : GameModel :=
  { m with placedPieces := [], occupiedSquares := ∅ }

/-! Part 5: operation sequences over the game model.

Used to state reachability claims: a session is a sequence of
`placePiece` / `removePiece` / `resetGameModel` calls starting from
`createGameModel`. -/

/-- One engine call. -/
inductive Op where
  | place (pieceName : String) (row col : Int) (orientationIndex : Nat) : Op
  | remove (pieceName : String) : Op
  | reset : Op

/-- Apply one call to the model.  A `placePiece` call that would throw in
JS (unknown name / out-of-range index) is modelled as leaving the model
unchanged; the safety predicates below rule such calls out anyway. -/
def applyOp (m : GameModel) : Op → GameModel
  | Op.place n r c oi =>
    match placePiece m n r c oi with
    | some mb => mb.1
    | none => m
  | Op.remove n => (removePiece m n).1
  | Op.reset => resetGameModel m

/-- Run a call sequence. -/
def runOps (m : GameModel) (ops : List Op) : GameModel :=
  ops.foldl applyOp m

/-- A call is safe in a model when it cannot throw and, for `placePiece`,
the piece is not already placed (a reposition must go through
`removePiece` first, as the per-piece state machine of the spec demands). -/
def safeOp (m : GameModel) : Op → Bool
  | Op.place n _ _ oi =>
    (match getPiece n with
     | some p => decide (oi < p.orientations.length) && !(mapHas m.placedPieces n)
     | none => false)
  | Op.remove _ => true
  | Op.reset => true

/-- Every call of the sequence is safe in the model it is applied to. -/
def safeRun (m : GameModel) : List Op → Bool
  | [] => true
  | op :: ops => safeOp m op && safeRun (applyOp m op) ops

/-- The occupancy invariant: the occupancy set is exactly the union of the
cells covered by the currently recorded placements. -/
def OccInvariant (m : GameModel) : Prop :=
  m.occupiedSquares = unionPlacements m.placedPieces

/-! Part 6: spec-side definitions used by refinement statements. -/

/-- Spec-side predicate, following the specification's words for the win
check: a cell is required exactly when it is a valid board cell and is
neither the one MONTH cell matching `currentDate.monthIndex` nor the one
DAY cell matching `currentDate.dayNumber` (the date-excluded cells, located
by `findMonthPosition` / `findDayPosition`). -/
def specRequiredCell (d : CurrentDate) (rc : Int × Int) : Prop :=
  isValidGridPosition rc.1 rc.2 = true ∧
  findMonthPosition d.monthIndex ≠ some rc ∧
  findDayPosition d.dayNumber ≠ some rc

instance (d : CurrentDate) (rc : Int × Int) : Decidable (specRequiredCell d rc) := by
  unfold specRequiredCell; infer_instance

instance (m : GameModel) : Decidable (OccInvariant m) := by
  unfold OccInvariant; infer_instance

/-! Part 6b: concrete instances used by witnesses and counterexamples. -/

/-- A fresh game model over the initialized board. -/
def emptyModel : GameModel := createGameModel initializeGrid

/-- The L piece as declared in the catalog. -/
def pieceL : Piece :=
  ⟨"L", "#E74C3C", generateOrientations [(0,0), (1,0), (2,0), (3,0), (0,1)]⟩

/-- Absolute board cells of the L piece in orientation 0 anchored at
row 2, column 0. -/
def lAbsCoords : List (Int × Int) :=
  pieceToGridCoords (pieceL.orientations.getD 0 []) 2 0

/-- The model after placing the L piece at row 2, column 0, orientation 0. -/
def placedLModel : GameModel :=
  ((placePiece emptyModel "L" 2 0 0).getD (emptyModel, false)).1

/-- The model after placing the L piece and then placing it again at a
different anchor without removing it first. -/
def driftModel : GameModel :=
  runOps emptyModel [Op.place "L" 2 0 0, Op.place "L" 3 1 0]

/-- The `(row, col, monthIndex)` triples of the board's MONTH cells. -/
def monthEntries : List (Int × Int × Nat) :=
  getAllSquares.filterMap (fun e =>
    match e.2.2 with
    | Square.month _ mi => some (e.1, e.2.1, mi)
    | _ => none)

/-- The `(row, col, dayNumber)` triples of the board's DAY cells. -/
def dayEntries : List (Int × Int × Nat) :=
  getAllSquares.filterMap (fun e =>
    match e.2.2 with
    | Square.day _ dn => some (e.1, e.2.1, dn)
    | _ => none)

/-! Part 7: helper lemmas. -/

/-- Every triple listed by `getAllSquares` is a valid grid position. -/
lemma allSquares_valid : ∀ e ∈ getAllSquares, isValidGridPosition e.1 e.2.1 = true := by
  decide

/-- Conversely, a valid in-bounds position appears in `getAllSquares`,
with its own grid cell as the square. -/
lemma valid_mem_allSquares : ∀ r ∈ List.range 6, ∀ c ∈ List.range 8,
    isValidGridPosition (r : Int) (c : Int) = true →
    ((r : Int), (c : Int), gridCell r c) ∈ getAllSquares := by
  decide

/-- Uniqueness of month cells: for a month index in range, a listed square
matches the index exactly when its position is the one `findMonthPosition`
returns. -/
lemma month_unique : ∀ mi ∈ List.range 12, ∀ e ∈ getAllSquares,
    ((match e.2.2 with
      | Square.month _ j => j == mi
      | _ => false) = true ↔ findMonthPosition mi = some (e.1, e.2.1)) := by
  decide

/-- Uniqueness of day cells: for a day number in range, a listed square
matches the number exactly when its position is the one `findDayPosition`
returns. -/
lemma day_unique : ∀ k ∈ List.range 31, ∀ e ∈ getAllSquares,
    ((match e.2.2 with
      | Square.day _ j => j == k + 1
      | _ => false) = true ↔ findDayPosition (k + 1) = some (e.1, e.2.1)) := by
  decide

/-- Membership in the `squaresToCover` list, unfolded: the position carries
a calendar square that is not the current month or day cell. -/
lemma mem_squaresToCover (d : CurrentDate) (p : Int × Int) :
    p ∈ squaresToCover d ↔
      ∃ s, (p.1, p.2, s) ∈ getAllSquares ∧ squareIsCurrent d s = false := by
  unfold squaresToCover
  constructor
  · intro hp
    rcases List.mem_map.mp hp with ⟨e, he, hep⟩
    rcases List.mem_filter.mp he with ⟨heAll, hecur⟩
    subst hep
    exact ⟨e.2.2, heAll, by simpa using hecur⟩
  · rintro ⟨s, hmem, hcur⟩
    exact List.mem_map.mpr ⟨(p.1, p.2, s), List.mem_filter.mpr ⟨hmem, by simp [hcur]⟩, rfl⟩

/-- A position is a valid grid position exactly when it appears (with some
square) in `getAllSquares`. -/
lemma valid_iff_mem_allSquares (p : Int × Int) :
    isValidGridPosition p.1 p.2 = true ↔ ∃ s, (p.1, p.2, s) ∈ getAllSquares := by
  constructor
  · intro h
    have hb : 0 ≤ p.1 ∧ p.1 < 6 ∧ 0 ≤ p.2 ∧ p.2 < 8 := by
      unfold isValidGridPosition GRID_ROWS GRID_COLS at h
      simp only [Bool.and_eq_true, decide_eq_true_eq] at h
      omega
    obtain ⟨h1, h2, h3, h4⟩ := hb
    have hr : p.1 = ((p.1.toNat : Nat) : Int) := (Int.toNat_of_nonneg h1).symm
    have hc : p.2 = ((p.2.toNat : Nat) : Int) := (Int.toNat_of_nonneg h3).symm
    have hrn : p.1.toNat ∈ List.range 6 := List.mem_range.mpr (by omega)
    have hcn : p.2.toNat ∈ List.range 8 := List.mem_range.mpr (by omega)
    refine ⟨gridCell p.1.toNat p.2.toNat, ?_⟩
    rw [hr, hc]
    exact valid_mem_allSquares _ hrn _ hcn (by rw [← hr, ← hc]; exact h)
  · rintro ⟨s, hs⟩
    exact allSquares_valid (p.1, p.2, s) hs

/-- Appending a fresh placement to the map extends the rebuilt union by
exactly that placement's cells. -/
lemma unionPlacements_append (l : List (String × Placement)) (n : String)
    (pl : Placement) :
    unionPlacements (l ++ [(n, pl)]) =
      addCells (unionPlacements l) (placementCells n pl) := by
  unfold unionPlacements
  rw [List.foldl_append]
  rfl

/-- Setting a key that is not in the map appends the new binding. -/
lemma mapSet_not_has (l : List (String × Placement)) (n : String) (pl : Placement)
    (h : mapHas l n = false) : mapSet l n pl = l ++ [(n, pl)] := by
  unfold mapSet
  rw [h]
  rfl

/-- One safe engine call preserves the occupancy invariant. -/
lemma applyOp_inv (m : GameModel) (op : Op) (hInv : OccInvariant m)
    (hsafe : safeOp m op = true) : OccInvariant (applyOp m op) := by
  cases op with
  | reset => rfl
  | remove n =>
    show OccInvariant (removePiece m n).1
    unfold removePiece
    cases h : mapHas m.placedPieces n with
    | false => simpa using hInv
    | true => simp; rfl
  | place n r c oi =>
    simp only [safeOp] at hsafe
    cases hg : getPiece n with
    | none => rw [hg] at hsafe; simp at hsafe
    | some p =>
      rw [hg] at hsafe
      simp only [Bool.and_eq_true, decide_eq_true_eq, Bool.not_eq_true'] at hsafe
      obtain ⟨hlt, hnot⟩ := hsafe
      simp only [applyOp, placePiece, hg]
      rw [List.get?_eq_getElem?, List.getElem?_eq_getElem hlt]
      show OccInvariant
        { m with
            placedPieces := mapSet m.placedPieces n ⟨r, c, oi⟩,
            occupiedSquares := addCells m.occupiedSquares
              (pieceToGridCoords p.orientations[oi] r c) }
      unfold OccInvariant
      rw [mapSet_not_has m.placedPieces n ⟨r, c, oi⟩ hnot, unionPlacements_append]
      have hcells : placementCells n ⟨r, c, oi⟩ =
          pieceToGridCoords p.orientations[oi] r c := by
        simp only [placementCells, hg]
        rw [List.getD_eq_getElem?_getD, List.getElem?_eq_getElem hlt, Option.getD_some]
      rw [hcells]
      show addCells m.occupiedSquares _ = addCells (unionPlacements m.placedPieces) _
      rw [hInv]

/-- A sequence of safe engine calls preserves the occupancy invariant. -/
lemma runOps_inv (ops : List Op) (m : GameModel) (hInv : OccInvariant m)
    (hsafe : safeRun m ops = true) : OccInvariant (runOps m ops) := by
  induction ops generalizing m with
  | nil => exact hInv
  | cons op ops ih =>
    rw [show safeRun m (op :: ops) = (safeOp m op && safeRun (applyOp m op) ops) from rfl,
      Bool.and_eq_true] at hsafe
    exact ih (applyOp m op) (applyOp_inv m op hInv hsafe.1) hsafe.2

/-! Part 8: claim theorems. -/

/-- C3: for every game state and every in-range current date,
`checkWinCondition` returns `true` exactly when every valid board cell other
than the current-date MONTH cell and the current-date DAY cell is in the
state's `occupiedSquares`; and its result depends only on `occupiedSquares`
and the date (any model with the same occupancy set gives the same answer,
so there is no hidden time source). -/
theorem checkWinCondition_correct (m : GameModel) (d : CurrentDate)
    (hm : d.monthIndex < 12) (hd1 : 1 ≤ d.dayNumber) (hd2 : d.dayNumber ≤ 31) :
    (checkWinCondition m d = true ↔
      ∀ rc : Int × Int, specRequiredCell d rc → rc ∈ m.occupiedSquares) ∧
    (∀ m2 : GameModel, m2.occupiedSquares = m.occupiedSquares →
      checkWinCondition m2 d = checkWinCondition m d) := by
  have hmi : d.monthIndex ∈ List.range 12 := List.mem_range.mpr hm
  have hki : d.dayNumber - 1 ∈ List.range 31 := List.mem_range.mpr (by omega)
  have hMu := month_unique d.monthIndex hmi
  have hDu := day_unique (d.dayNumber - 1) hki
  rw [show d.dayNumber - 1 + 1 = d.dayNumber from by omega] at hDu
  constructor
  · constructor
    · intro h rc hreq
      obtain ⟨hval, hmne, hdne⟩ := hreq
      obtain ⟨s, hmem⟩ := (valid_iff_mem_allSquares rc).mp hval
      have hMi := hMu (rc.1, rc.2, s) hmem
      have hDi := hDu (rc.1, rc.2, s) hmem
      have hcur : squareIsCurrent d s = false := by
        cases s with
        | empty => rfl
        | month l j =>
          show (j == d.monthIndex) = false
          cases hj : (j == d.monthIndex) with
          | false => rfl
          | true => exact absurd (hMi.mp hj) hmne
        | day l j =>
          show (j == d.dayNumber) = false
          cases hj : (j == d.dayNumber) with
          | false => rfl
          | true => exact absurd (hDi.mp hj) hdne
      unfold checkWinCondition at h
      exact of_decide_eq_true
        (List.all_eq_true.mp h rc ((mem_squaresToCover d rc).mpr ⟨s, hmem, hcur⟩))
    · intro h
      unfold checkWinCondition
      refine List.all_eq_true.mpr (fun rc hrc => decide_eq_true ?_)
      obtain ⟨s, hmem, hcur⟩ := (mem_squaresToCover d rc).mp hrc
      refine h rc ⟨(valid_iff_mem_allSquares rc).mpr ⟨s, hmem⟩, ?_, ?_⟩
      · intro heq
        have hmt := (hMu (rc.1, rc.2, s) hmem).mpr heq
        cases s with
        | empty => exact Bool.false_ne_true hmt
        | month l j =>
          have hcur2 : (j == d.monthIndex) = false := hcur
          have hmt2 : (j == d.monthIndex) = true := hmt
          rw [hmt2] at hcur2
          exact absurd hcur2 (by decide)
        | day l j => exact Bool.false_ne_true hmt
      · intro heq
        have hdt := (hDu (rc.1, rc.2, s) hmem).mpr heq
        cases s with
        | empty => exact Bool.false_ne_true hdt
        | month l j => exact Bool.false_ne_true hdt
        | day l j =>
          have hcur2 : (j == d.dayNumber) = false := hcur
          have hdt2 : (j == d.dayNumber) = true := hdt
          rw [hdt2] at hcur2
          exact absurd hcur2 (by decide)
  · intro m2 h
    unfold checkWinCondition
    rw [h]

/-- C3 witness: the characterization of `checkWinCondition` instantiated at
the fresh model and the date month=0 / day=1, with the range hypotheses
discharged. -/
theorem checkWinCondition_correct_witness :
    (0 : Nat) < 12 ∧ (1 : Nat) ≤ 1 ∧ (1 : Nat) ≤ 31 ∧
    ((checkWinCondition emptyModel ⟨0, 1⟩ = true ↔
        ∀ rc : Int × Int, specRequiredCell ⟨0, 1⟩ rc → rc ∈ emptyModel.occupiedSquares) ∧
      (∀ m2 : GameModel, m2.occupiedSquares = emptyModel.occupiedSquares →
        checkWinCondition m2 ⟨0, 1⟩ = checkWinCondition emptyModel ⟨0, 1⟩)) :=
  ⟨by decide, by decide, by decide,
    checkWinCondition_correct emptyModel ⟨0, 1⟩ (by decide) (by decide) (by decide)⟩

/-- C1: evaluation of the code at the failing input.  With current date
month=0 / day=1 the excluded cells are the month-0 cell `(0, 1)` and the
day-1 cell `(2, 0)`; yet `isValidPlacement` accepts a placement consisting
of exactly the excluded day cell on an empty board, because the source
function has only two parameters and checks only board validity and
occupancy — the excluded-cell condition of the claim is not enforced
anywhere in it. -/
theorem isValidPlacement_ignores_excluded_cells :
    findMonthPosition 0 = some (0, 1) ∧ findDayPosition 1 = some (2, 0) ∧
    isValidPlacement [(2, 0)] ∅ = true := by decide

/-- C2 counterexample: placing the L piece and then placing it again at a
different anchor (without removing it) leaves the cells of the first
placement in `occupiedSquares` even though the placements map records only
the second placement, so the occupancy set is not the union of the current
placements. -/
theorem occupancy_drift_counterexample : ¬ OccInvariant driftModel := by decide

/-- C2 (amended): in every game state reachable from a fresh model via a
sequence of placePiece / removePiece / reset calls in which every
placePiece call names a catalog piece with an in-range orientation index
that is not currently placed (a reposition goes through removePiece first),
the occupancy set equals exactly the union of the cells covered by the
currently recorded placements. -/
theorem occupancy_invariant_reachable (grid : List (List Square)) (ops : List Op)
    (h : safeRun (createGameModel grid) ops = true) :
    OccInvariant (runOps (createGameModel grid) ops) :=
  runOps_inv ops (createGameModel grid) rfl h

/-- C2 witness: a concrete safe session — place L, remove it, place it at a
new anchor, reset, place U — satisfies the safety hypothesis and ends in a
state where occupancy equals the union of the placements. -/
theorem occupancy_invariant_reachable_witness :
    safeRun (createGameModel initializeGrid)
        [Op.place "L" 2 0 0, Op.remove "L", Op.place "L" 3 1 0, Op.reset,
         Op.place "U" 2 0 0] = true ∧
    OccInvariant (runOps (createGameModel initializeGrid)
        [Op.place "L" 2 0 0, Op.remove "L", Op.place "L" 3 1 0, Op.reset,
         Op.place "U" 2 0 0]) :=
  ⟨by decide,
    occupancy_invariant_reachable initializeGrid
      [Op.place "L" 2 0 0, Op.remove "L", Op.place "L" 3 1 0, Op.reset,
       Op.place "U" 2 0 0] (by decide)⟩

/-- C4: the L piece (base shape `[[0,0],[1,0],[2,0],[3,0],[0,1]]`) in
orientation 0 anchored at row=2, col=0 covers cells
(2,0), (3,0), (2,1), (2,2), (2,3); on the empty board (current date
month=0 / day=1) `isValidPlacement` accepts it, and after the piece is
placed there the same check is rejected because every one of its cells
overlaps the occupancy set. -/
theorem concrete_L_placement :
    getPiece "L" = some pieceL ∧
    pieceL.orientations.getD 0 [] = [(0,0), (0,1), (1,0), (2,0), (3,0)] ∧
    lAbsCoords = [(2,0), (3,0), (2,1), (2,2), (2,3)] ∧
    isValidPlacement lAbsCoords emptyModel.occupiedSquares = true ∧
    placePiece emptyModel "L" 2 0 0 = some (placedLModel, true) ∧
    isValidPlacement lAbsCoords placedLModel.occupiedSquares = false ∧
    lAbsCoords.all (fun rc => decide (rc ∈ placedLModel.occupiedSquares)) = true := by
  decide

/-- C5: the initialized board has exactly 43 calendar cells — 12 MONTH
cells with pairwise distinct month indices 0–11 lying in rows 0–1 and
columns 1–6, and 31 DAY cells with pairwise distinct day numbers 1–31, 8 in
each of rows 2–4 and 7 in row 5 columns 0–6 — and a position of the 6×8
grid is a valid grid position exactly when it is one of the listed calendar
cells. -/
theorem board_layout :
    getAllSquares.length = 43 ∧
    monthEntries.length = 12 ∧
    (monthEntries.map (fun e => e.2.2)).Nodup ∧
    (∀ e ∈ monthEntries, e.2.2 < 12 ∧ 0 ≤ e.1 ∧ e.1 ≤ 1 ∧ 1 ≤ e.2.1 ∧ e.2.1 ≤ 6) ∧
    dayEntries.length = 31 ∧
    (dayEntries.map (fun e => e.2.2)).Nodup ∧
    (∀ e ∈ dayEntries, 1 ≤ e.2.2 ∧ e.2.2 ≤ 31) ∧
    (dayEntries.filter (fun e => e.1 == (2 : Int))).length = 8 ∧
    (dayEntries.filter (fun e => e.1 == (3 : Int))).length = 8 ∧
    (dayEntries.filter (fun e => e.1 == (4 : Int))).length = 8 ∧
    (dayEntries.filter (fun e => e.1 == (5 : Int))).length = 7 ∧
    (∀ e ∈ dayEntries, (2 ≤ e.1 ∧ e.1 ≤ 4 ∧ 0 ≤ e.2.1 ∧ e.2.1 ≤ 7) ∨
      (e.1 = 5 ∧ 0 ≤ e.2.1 ∧ e.2.1 ≤ 6)) ∧
    (∀ r ∈ List.range 6, ∀ c ∈ List.range 8,
      (isValidGridPosition (r : Int) (c : Int) = true ↔
        ((r : Int), (c : Int)) ∈ getAllSquares.map (fun e => (e.1, e.2.1)))) := by
  decide

/-- C6: every piece of the catalog has an orientation count in {1, 2, 4, 8},
and no two orientations of one piece share a canonical key (the sorted
coordinate-list serialization, `sortCoords`). -/
theorem orientation_counts_and_keys :
    pieces.all (fun e =>
      (e.2.orientations.length == 1 || e.2.orientations.length == 2 ||
       e.2.orientations.length == 4 || e.2.orientations.length == 8) &&
      decide (e.2.orientations.map sortCoords).Nodup) = true := by decide

/-- C7: `findFlippedOrientation` is an involution — for every catalog piece
and every index within its orientation list, applying it twice returns the
original index. -/
theorem findFlippedOrientation_involutive :
    pieces.all (fun e =>
      (List.range e.2.orientations.length).all (fun i =>
        findFlippedOrientation e.1 (findFlippedOrientation e.1 i) == i)) = true := by
  decide

/-- C8: applying the 90° rotation transform four times to any stored
orientation of any catalog piece yields the same set of coordinates as the
original orientation (equal canonical keys, i.e. equal sorted
coordinate lists, which for duplicate-free lists means equal sets). -/
theorem rotation_closure :
    pieces.all (fun e =>
      e.2.orientations.all (fun o =>
        sortCoords (rotateCoords (rotateCoords (rotateCoords (rotateCoords o)))) ==
          sortCoords o)) = true := by decide

/-- C9: for every game state and every catalog piece with an in-range
orientation index, `placePiece` unconditionally records the placement via
`mapSet` (overwriting any existing placement for that name), adds the
placement's absolute cells to the occupancy set, and returns `true` — no
validity check is consulted and no input in this range is ever rejected. -/
theorem placePiece_unconditional (m : GameModel) (pieceName : String) (row col : Int)
    (orientationIndex : Nat) (p : Piece) (hp : getPiece pieceName = some p)
    (hoi : orientationIndex < p.orientations.length) :
    placePiece m pieceName row col orientationIndex =
      some ({ m with
                placedPieces := mapSet m.placedPieces pieceName
                  ⟨row, col, orientationIndex⟩,
                occupiedSquares := addCells m.occupiedSquares
                  (pieceToGridCoords (p.orientations.getD orientationIndex []) row col) },
            true) := by
  simp only [placePiece, hp]
  rw [List.get?_eq_getElem?, List.getElem?_eq_getElem hoi,
    List.getD_eq_getElem?_getD, List.getElem?_eq_getElem hoi, Option.getD_some]

/-- C9 witness: `placePiece` on the fresh model, piece L, anchor (2,0),
orientation 0, with both hypotheses discharged. -/
theorem placePiece_unconditional_witness :
    getPiece "L" = some pieceL ∧ 0 < pieceL.orientations.length ∧
    placePiece emptyModel "L" 2 0 0 =
      some ({ emptyModel with
                placedPieces := mapSet emptyModel.placedPieces "L" ⟨2, 0, 0⟩,
                occupiedSquares := addCells emptyModel.occupiedSquares
                  (pieceToGridCoords (pieceL.orientations.getD 0 []) 2 0) },
            true) :=
  ⟨by decide, by decide,
    placePiece_unconditional emptyModel "L" 2 0 0 pieceL (by decide) (by decide)⟩

/-- C10: `removePiece` returns `false` and leaves the model unchanged when
the named piece has no current placement; when it is placed, it deletes the
placement, rebuilds the occupancy set from the remaining placements, and
returns `true`. -/
theorem removePiece_branches (m : GameModel) (pieceName : String) :
    (mapHas m.placedPieces pieceName = false → removePiece m pieceName = (m, false)) ∧
    (mapHas m.placedPieces pieceName = true →
      removePiece m pieceName =
        (rebuildOccupiedSquares
          { m with placedPieces := mapDelete m.placedPieces pieceName }, true)) := by
  unfold removePiece
  constructor <;> intro h <;> simp [h]

/-- C10 witness: both branches at concrete models — piece L is not placed
in the fresh model (`false`, unchanged), and is placed in `placedLModel`
(`true`, delete then rebuild). -/
theorem removePiece_branches_witness :
    (mapHas emptyModel.placedPieces "L" = false ∧
      removePiece emptyModel "L" = (emptyModel, false)) ∧
    (mapHas placedLModel.placedPieces "L" = true ∧
      removePiece placedLModel "L" =
        (rebuildOccupiedSquares
          { placedLModel with placedPieces := mapDelete placedLModel.placedPieces "L" },
         true)) :=
  ⟨⟨by decide, (removePiece_branches emptyModel "L").1 (by decide)⟩,
   ⟨by decide, (removePiece_branches placedLModel "L").2 (by decide)⟩⟩
